import Mathlib

set_option maxRecDepth 4000

/-!
Verification of `scrape_tools.py`: a shallow embedding of the scraper's
pure logic (link extraction, field heuristics, batch orchestration,
exporters) together with proofs of the specified properties.

Network I/O (`requests.get`) and HTML parsing (`BeautifulSoup`) are
library boundaries: fetching is modelled as a function parameter
`String → Option String` (`none` = transport failure / bad status), and a
parsed HTML document is modelled by the structure `Doc` holding exactly
the features the code reads from the soup (the `<title>` string, the
`<meta>` tags, the anchors with an `href`, and the raw text the e-mail
regex runs over).
-/

/-- The whitespace characters of Python's `str.strip` / regex `\s`
(ASCII range; the scraped strings involved are ASCII-spaced). -/
def isPySpace (c : Char) : Bool :=
  c == ' ' || c == '\t' || c == '\n' || c == '\r' || c == '\x0b' || c == '\x0c'

/-- Python `str.strip()`. -/
def pyStrip (s : String) : String :=
  String.mk (((s.data.dropWhile isPySpace).reverse.dropWhile isPySpace).reverse)

/-- Python `str.lower()` (ASCII case folding, as used on hrefs/keywords). -/
def pyLower (s : String) : String :=
  String.mk (s.data.map Char.toLower)

/-- Python `needle in hay` substring containment. -/
def strContains (hay needle : String) : Bool :=
  decide (needle.data <:+: hay.data)

/-- Python's `<=` on `str`: lexicographic comparison of code points.
(Defined executably so that concrete runs reduce inside the kernel.) -/
def strLeb : List Char → List Char → Bool
  | [], _ => true
  | _ :: _, [] => false
  | a :: as, b :: bs =>
    if a.toNat = b.toNat then strLeb as bs else decide (a.toNat < b.toNat)

/-- The ordering used by Python's `sorted` on strings, as a relation. -/
def strLe (a b : String) : Prop := strLeb a.data b.data = true

instance : DecidableRel strLe := fun a b =>
  inferInstanceAs (Decidable (strLeb a.data b.data = true))

theorem strLeb_total : ∀ as bs : List Char, strLeb as bs = true ∨ strLeb bs as = true
  | [], _ => Or.inl rfl
  | _ :: _, [] => Or.inr rfl
  | a :: as, b :: bs => by
    by_cases h : a.toNat = b.toNat
    · simpa [strLeb, h] using strLeb_total as bs
    · have h' : ¬ b.toNat = a.toNat := fun e => h e.symm
      rcases Nat.lt_or_ge a.toNat b.toNat with hlt | hge
      · exact Or.inl (by simp [strLeb, h, hlt])
      · have : b.toNat < a.toNat := Nat.lt_of_le_of_ne hge h'
        exact Or.inr (by simp [strLeb, h', this])

theorem strLeb_trans : ∀ as bs cs : List Char,
    strLeb as bs = true → strLeb bs cs = true → strLeb as cs = true
  | [], _, _, _, _ => rfl
  | _ :: _, [], _, h, _ => by simp [strLeb] at h
  | _ :: _, _ :: _, [], _, h => by simp [strLeb] at h
  | a :: as, b :: bs, c :: cs, h1, h2 => by
    by_cases hab : a.toNat = b.toNat <;> by_cases hbc : b.toNat = c.toNat
    · have hac : a.toNat = c.toNat := hab.trans hbc
      simp only [strLeb, if_pos hab] at h1
      simp only [strLeb, if_pos hbc] at h2
      simpa [strLeb, hac] using strLeb_trans as bs cs h1 h2
    · have hac : ¬ a.toNat = c.toNat := by rw [hab]; exact hbc
      simp only [strLeb, if_neg hbc, decide_eq_true_eq] at h2
      have : a.toNat < c.toNat := hab ▸ h2
      simp [strLeb, hac, this]
    · have : a.toNat < b.toNat := by
        simpa [strLeb, hab, decide_eq_true_eq] using h1
      have hac : a.toNat < c.toNat := hbc ▸ this
      simp [strLeb, Nat.ne_of_lt hac, hac]
    · simp only [strLeb, if_neg hab, decide_eq_true_eq] at h1
      simp only [strLeb, if_neg hbc, decide_eq_true_eq] at h2
      have hac : a.toNat < c.toNat := Nat.lt_trans h1 h2
      simp [strLeb, Nat.ne_of_lt hac, hac]

instance : IsTotal String strLe := ⟨fun a b => strLeb_total a.data b.data⟩

instance : IsTrans String strLe := ⟨fun a b c => strLeb_trans a.data b.data c.data⟩

/-! ## Link extractor (`extract_tool_links`, lines 23–38)

The regex `\((https?://[^\s)]+)\)` is embedded as a direct scanner.
Since `)` is excluded from the bracketed character class and `:` is not
an allowed continuation after `http` when an `s` is present, the regex
is deterministic: no backtracking can produce a match that the scanner
below misses. -/

/-- A character matched by `[^\s)]`. -/
def isUrlChar (c : Char) : Bool :=
  !(isPySpace c) && c != ')'

/-- After the scheme, match `[^\s)]+\)`: a nonempty run of URL characters
followed by a closing parenthesis. -/
def urlTail (pre : List Char) (r : List Char) : Option (List Char × List Char) :=
  let run := r.takeWhile isUrlChar
  if run.isEmpty then none
  else
    match r.dropWhile isUrlChar with
    | ')' :: rest => some (pre ++ run, rest)
    | _ => none

/-- Try to match `\((https?://[^\s)]+)\)` anchored at the head of `cs`;
returns the captured URL and the remainder after the match.  The
`https?` alternation is deterministic — after `(http`, an `s` in the
input must be taken (the alternative continuation is a literal `:`,
never `s`) — so the pattern head is exactly `(https://` or `(http://`. -/
def matchUrlAt (cs : List Char) : Option (List Char × List Char) :=
  if "(https://".data <+: cs then urlTail "https://".data (cs.drop 9)
  else if "(http://".data <+: cs then urlTail "http://".data (cs.drop 8)
  else none

/-- `re.findall` for the URL pattern: leftmost, non-overlapping matches.
`fuel` bounds the recursion; `cs.length` is always enough fuel since each
step consumes at least one character. -/
def findUrls : Nat → List Char → List (List Char)
  | 0, _ => []
  | _ + 1, [] => []
  | fuel + 1, c :: t =>
    match matchUrlAt (c :: t) with
    | some (u, rest) => u :: findUrls fuel rest
    | none => findUrls fuel t

/-- The self-link path segment excluded by `extract_tool_links`. -/
def excludedSeg : String :=
  "github.com/yousefebrahimi0/1000-AI-collection-tools"

/-- `extract_tool_links(markdown_text)`: regex-find all parenthesized
http/https URLs, deduplicate (the Python `set`), drop self-links, and
return them sorted. -/
def extract_tool_links (markdown_text : String) : List String :=
  let urls := ((findUrls markdown_text.data.length markdown_text.data).map String.mk).dedup
  let filtered := urls.filter (fun url => !(strContains url excludedSeg))
  List.insertionSort strLe filtered

example : extract_tool_links "(https://b.ex/x) (https://a.ex) (https://b.ex/x)"
    = ["https://a.ex", "https://b.ex/x"] := by decide

/-! ## Parsed HTML documents

A `Doc` holds exactly what the code reads from a `BeautifulSoup` parse:
the `<title>` text (`soup.title.string`, absent when there is no title
tag or it has no string content), the `<meta>` tags with their
`property`/`content` attributes, the anchors having an `href` attribute
(`soup.find_all("a", href=True)`, in document order, with their visible
text), and the raw HTML the e-mail regex runs over. -/

structure MetaTag where
  property : String
  content : String
deriving DecidableEq, Repr

structure Anchor where
  href : String
  text : String
deriving DecidableEq, Repr

structure Doc where
  title : Option String
  metas : List MetaTag
  anchors : List Anchor
  raw : String
deriving DecidableEq, Repr

/-- `soup.title.string.strip() if soup.title and soup.title.string else ""` (line 54). -/
def docTitle (d : Doc) : String :=
  match d.title with
  | some t => pyStrip t
  | none => ""

/-- `soup.find("meta", property=prop)` followed by the truthy `content`
check and `.strip()` (lines 58–64).  A `content` attribute that is
missing or empty is falsy in Python, so both leave the result `""`. -/
def docMeta (d : Doc) (prop : String) : String :=
  match d.metas.find? (fun m => m.property == prop) with
  | some m => if m.content == "" then "" else pyStrip m.content
  | none => ""

/-! ## Name/company heuristics (`guess_product_name_and_company`, lines 51–92) -/

/-- The separator glyphs `["|", "–", "-", "•", "—"]` of lines 70/77.
They are all one-character strings, so `sep in s` is character
containment and `s.split(sep)` is a character split; they are embedded
as characters. -/
def sepList : List Char := ['|', '–', '-', '•', '—']

/-- Python `s.split(sep)` for a one-character separator: empty parts are
kept, `"".split(sep) == [""]`. -/
def splitOnChar (sep : Char) : List Char → List (List Char)
  | [] => [[]]
  | c :: t =>
    if c == sep then [] :: splitOnChar sep t
    else
      match splitOnChar sep t with
      | h :: r => (c :: h) :: r
      | [] => [[c]]

/-- `[p.strip() for p in s.split(sep) if p.strip()]` (lines 72/79). -/
def splitParts (sep : Char) (s : String) : List String :=
  ((splitOnChar sep s.data).map (fun p => pyStrip (String.mk p))).filter
    (fun p => !(p == ""))

/-- The `for sep in [...]` loop for `product_name` (lines 70–75): at the
first separator contained in `s` whose stripped split parts are not all
empty, keep the first part and stop; if the parts are all empty the loop
continues with the next separator (the `break` sits under `if parts`). -/
def cutFirst (s : String) : List Char → String
  | [] => s
  | sep :: rest =>
    if s.data.contains sep then
      match splitParts sep s with
      | p :: _ => p
      | [] => cutFirst s rest
    else cutFirst s rest

/-- The loop for `company_name` (lines 77–82): same as `cutFirst` but
keeping the last part (`parts[-1]`). -/
def cutLast (s : String) : List Char → String
  | [] => s
  | sep :: rest =>
    if s.data.contains sep then
      match splitParts sep s with
      | p :: ps => ps.getLastD p
      | [] => cutLast s rest
    else cutLast s rest

/-- Scan to the first `://` and return what follows. -/
def afterScheme : List Char → Option (List Char)
  | [] => none
  | ':' :: '/' :: '/' :: rest => some rest
  | _ :: t => afterScheme t

/-- Models `urllib.parse.urlparse(url).netloc` for absolute URLs of the
kind scraped here: the text between `://` and the next `/`, `?` or `#`. -/
def pyNetloc (url : String) : String :=
  match afterScheme url.data with
  | some rest => String.mk (rest.takeWhile (fun c => !(c == '/' || c == '?' || c == '#')))
  | none => ""

/-- Python `domain.replace("www.", "")` (line 87): every non-overlapping
occurrence of `"www."` is removed, scanning left to right — not only a
leading one. -/
def removeWww : List Char → List Char
  | 'w' :: 'w' :: 'w' :: '.' :: rest => removeWww rest
  | c :: rest => c :: removeWww rest
  | [] => []

/-- `guess_product_name_and_company(html, url)` (lines 51–92), over the
parsed document.  Python's `x or y` on strings is `if x == "" then y else x`. -/
def guess_product_name_and_company (d : Doc) (url : String) : String × String :=
  let title := docTitle d
  let og_site_name := docMeta d "og:site_name"
  let og_title := docMeta d "og:title"
  let product_name := if og_title == "" then title else og_title
  let company_name := if og_site_name == "" then title else og_site_name
  let product_name := cutFirst product_name sepList
  let company_name := cutLast company_name sepList
  let company_name :=
    if company_name == "" then String.mk (removeWww (pyNetloc url).data) else company_name
  let product_name := if product_name == "" then company_name else product_name
  (product_name, company_name)

/-- The behaviour the spec ascribes to the domain fallback: only a
*leading* `"www."` stripped from the host (claim C5's wording), for
comparison against the code's `removeWww`. -/
def specLeadingWwwStripped (host : String) : String :=
  if "www.".data <+: host.data then String.mk (host.data.drop 4) else host

example : guess_product_name_and_company ⟨some "Acme — Acme Corp", [], [], ""⟩ "https://acme.ex"
    = ("Acme", "Acme Corp") := by decide

example : (guess_product_name_and_company ⟨none, [], [], ""⟩ "https://app.www.ex.com/p").2
    = "app.ex.com" := by decide

/-! ## E-mail extraction (`extract_emails`, lines 95–109)

The regex `[A-Za-z0-9._%+-]+@[A-Za-z0-9.-]+\.[A-Za-z]{2,}` is embedded
as a scanner.  The local part needs no backtracking (`@` is not a local
character, so only the maximal run can be followed by `@`); the domain
part backtracks: the engine tries the longest `[A-Za-z0-9.-]+` run
first and shortens it until a literal `.` followed by at least two
letters fits, which `domBack` does by descending run length. -/

/-- A character matched by `[A-Za-z0-9._%+-]`. -/
def isLocalChar (c : Char) : Bool :=
  c.isAlphanum || c == '.' || c == '_' || c == '%' || c == '+' || c == '-'

/-- A character matched by `[A-Za-z0-9.-]`. -/
def isDomChar (c : Char) : Bool :=
  c.isAlphanum || c == '.' || c == '-'

/-- Backtracking search over the maximal domain-character run `dom`:
try prefix length `n`, requiring `dom[n] = '.'` and at least two letters
after it; on failure retry with `n - 1`.  Returns the successful prefix
length and the greedy letter run. -/
def domBack (dom : List Char) : Nat → Option (Nat × List Char)
  | 0 => none
  | n + 1 =>
    let alph := (dom.drop (n + 2)).takeWhile Char.isAlpha
    if dom.getD (n + 1) ' ' == '.' && decide (2 ≤ alph.length) then some (n + 1, alph)
    else domBack dom n

/-- Try to match the e-mail regex anchored at the head of `cs`; returns
the match and the remainder after it. -/
def matchEmailAt (cs : List Char) : Option (List Char × List Char) :=
  let loc := cs.takeWhile isLocalChar
  if loc.isEmpty then none
  else
    match cs.dropWhile isLocalChar with
    | '@' :: r =>
      let dom := r.takeWhile isDomChar
      match domBack dom dom.length with
      | some (alen, alph) =>
        let consumed := alen + 1 + alph.length
        some (loc ++ '@' :: dom.take consumed, dom.drop consumed ++ r.dropWhile isDomChar)
      | none => none
    | _ => none

/-- `re.findall` for the e-mail pattern: leftmost, non-overlapping
matches; `fuel = cs.length` always suffices. -/
def findEmails : Nat → List Char → List (List Char)
  | 0, _ => []
  | _ + 1, [] => []
  | fuel + 1, c :: t =>
    match matchEmailAt (c :: t) with
    | some (e, rest) => e :: findEmails fuel rest
    | none => findEmails fuel t

/-- The `mailto:` source (lines 99–103): each anchor whose href starts
with `mailto:` contributes the target with a trailing `?query` removed. -/
def mailtoEmails (anchors : List Anchor) : List String :=
  anchors.filterMap (fun a =>
    if decide ("mailto:".data <+: a.href.data) then
      some (String.mk ((a.href.data.drop 7).takeWhile (fun c => !(c == '?'))))
    else none)

/-- The plain-text regex source (lines 105–107). -/
def emailMatches (raw : String) : List String :=
  (findEmails raw.data.length raw.data).map String.mk

/-- `extract_emails(html)` (lines 95–109): the set union of both
sources, returned sorted. -/
def extract_emails (d : Doc) : List String :=
  List.insertionSort strLe ((mailtoEmails d.anchors ++ emailMatches d.raw).dedup)

example : emailMatches "hi a@b.co or x@y.zz!" = ["a@b.co", "x@y.zz"] := by decide

example : emailMatches "a@b.cd.ef" = ["a@b.cd.ef"] := by decide

example : emailMatches "ab@@c.de" = [] := by decide

example : emailMatches "..a@b.cc" = ["..a@b.cc"] := by decide

example : emailMatches "a@-b.cc" = ["a@-b.cc"] := by decide

example : extract_emails ⟨none, [], [⟨"mailto:a@b.co?subject=hi", "mail"⟩], "a@b.co x@y.zz"⟩
    = ["a@b.co", "x@y.zz"] := by decide

/-! ## Social links (`extract_social_links`, lines 112–124) -/

/-- The loop body of lines 117–122: the first matching href per
platform is kept because later matches are guarded by `not linkedin_url`
/ `not twitter_url`. -/
def socialLoop : List Anchor → String → String → String × String
  | [], linkedin_url, twitter_url => (linkedin_url, twitter_url)
  | a :: rest, linkedin_url, twitter_url =>
    let linkedin_url :=
      if strContains a.href "linkedin.com" && linkedin_url == "" then a.href else linkedin_url
    let twitter_url :=
      if (strContains a.href "twitter.com" || strContains a.href "x.com") && twitter_url == ""
      then a.href else twitter_url
    socialLoop rest linkedin_url twitter_url

/-- `extract_social_links(html)` (lines 112–124). -/
def extract_social_links (d : Doc) : String × String :=
  socialLoop d.anchors "" ""

example : extract_social_links
    ⟨none, [], [⟨"https://linkedin.com/a", ""⟩, ⟨"https://linkedin.com/b", ""⟩], ""⟩
    = ("https://linkedin.com/a", "") := by decide

/-! ## Careers page (`find_careers_page`, lines 127–138) -/

def careers_keywords : List String :=
  ["careers", "jobs", "join-us", "joinus", "work-with-us", "work with us"]

/-- The scheme of an absolute URL: the text before the first `:`. -/
def schemeOf (url : String) : String :=
  String.mk (url.data.takeWhile (fun c => !(c == ':')))

/-- `scheme://netloc` of an absolute URL. -/
def schemeHostOf (url : String) : String :=
  schemeOf url ++ "://" ++ pyNetloc url

/-- The path of an absolute URL: from the first `/` after the host up
to a `?` or `#`. -/
def pathOf (url : String) : String :=
  match afterScheme url.data with
  | some rest =>
    String.mk (((rest.dropWhile (fun c => !(c == '/' || c == '?' || c == '#'))).takeWhile
      (fun c => !(c == '?' || c == '#'))))
  | none => ""

/-- The path truncated after its last `/` (the base directory); `/`
when the path has no slash. -/
def dirOfPath (p : List Char) : List Char :=
  let r := p.reverse.dropWhile (fun c => !(c == '/'))
  if r.isEmpty then ['/'] else r.reverse

/-- Models `urllib.parse.urljoin(base, href)` for the href shapes that
occur on scraped pages: an absolute href replaces the base; a
scheme-relative `//host/…` href takes the base's scheme; a root-relative
`/…` href is resolved against the base's host; any other nonempty href
is resolved against the base path's directory; an empty href yields the
base. -/
def pyUrljoin (base href : String) : String :=
  if href == "" then base
  else if strContains href "://" then href
  else if decide ("//".data <+: href.data) then schemeOf base ++ ":" ++ href
  else if decide ("/".data <+: href.data) then schemeHostOf base ++ href
  else schemeHostOf base ++ String.mk (dirOfPath (pathOf base).data) ++ href

/-- `find_careers_page(html, base_url)` (lines 127–138): the first
anchor (document order) whose href (lowercased) or stripped lowercased
text contains a careers keyword; its href is resolved against the page
URL. -/
def find_careers_page (d : Doc) (base_url : String) : String :=
  match d.anchors.find? (fun a =>
      careers_keywords.any (fun kw => strContains (pyLower a.href) kw)
      || careers_keywords.any (fun kw => strContains (pyLower (pyStrip a.text)) kw)) with
  | some a => pyUrljoin base_url a.href
  | none => ""

example : find_careers_page ⟨none, [], [⟨"/jobs", "Open roles"⟩], ""⟩ "https://acme.com/about"
    = "https://acme.com/jobs" := by decide

/-! ## Records and the batch orchestrator (`scrape_all_tools`, lines 141–184)

The orchestrator is parametrised by the two library boundaries:
`fetch : String → Option String` models `fetch_html` (`none` = the
caught exception path, line 48), and `parse : String → Doc` models
`BeautifulSoup(html, "html.parser")`.  The loop is embedded as a trace
of events so that both the appended records and the `time.sleep(delay)`
calls are visible. -/

structure ToolRecord where
  product_name : String
  company : String
  email : String
  linkedin_url : String
  twitter_url : String
  careers_page : String
  tool_url : String
deriving DecidableEq, Repr

/-- The placeholder record of lines 155–163. -/
def emptyRecord (url : String) : ToolRecord :=
  { product_name := "", company := "", email := "", linkedin_url := "", twitter_url := "",
    careers_page := "", tool_url := url }

/-- The success-branch record of lines 166–179. -/
def makeRecord (parse : String → Doc) (html url : String) : ToolRecord :=
  let d := parse html
  { product_name := (guess_product_name_and_company d url).1,
    company := (guess_product_name_and_company d url).2,
    email := String.intercalate "; " (extract_emails d),
    linkedin_url := (extract_social_links d).1,
    twitter_url := (extract_social_links d).2,
    careers_page := find_careers_page d url,
    tool_url := url }

/-- One observable step of the loop body: a record appended to
`records`, or a `time.sleep(delay)` call. -/
inductive Event where
  | emit (r : ToolRecord)
  | sleep
deriving DecidableEq, Repr

/-- Python's truthiness test `not html` on the fetch result: true for
`None` and for the empty string. -/
def pyFalsy : Option String → Bool
  | none => true
  | some s => s == ""

/-- The `for url in tool_urls` loop (lines 151–182).  When `not html`
the placeholder record is appended and `continue` skips the rest of the
body — including `time.sleep` (line 182), which only the success branch
reaches. -/
def scrapeLoop (fetch : String → Option String) (parse : String → Doc) :
    List String → List Event
  | [] => []
  | url :: rest =>
    if pyFalsy (fetch url) then
      Event.emit (emptyRecord url) :: scrapeLoop fetch parse rest
    else
      Event.emit (makeRecord parse ((fetch url).getD "") url) :: Event.sleep ::
        scrapeLoop fetch parse rest

/-- Python `l[:n]` for an `int` bound: a negative `n` counts from the
end (`max 0 (len + n)` elements). -/
def pyTake (n : Int) (l : List String) : List String :=
  if 0 ≤ n then l.take n.toNat else l.take (l.length - n.natAbs)

/-- The URL list the loop iterates (lines 143–147): the extracted links,
truncated only when `limit` is truthy — `if limit:` is false both for
`None` and for `0`. -/
def processedUrls (md : String) (limit : Option Int) : List String :=
  let tool_urls := extract_tool_links md
  match limit with
  | some n => if n ≠ 0 then pyTake n tool_urls else tool_urls
  | none => tool_urls

/-- `scrape_all_tools(limit, delay)` (lines 141–184) as its event
trace, with the source markdown `md` standing for the fetched README. -/
def scrape_all_tools (fetch : String → Option String) (parse : String → Doc)
    (md : String) (limit : Option Int) : List Event :=
  scrapeLoop fetch parse (processedUrls md limit)

/-- The `records` list accumulated by the run. -/
def recordsOf (es : List Event) : List ToolRecord :=
  es.filterMap (fun e => match e with | .emit r => some r | .sleep => none)

/-- How many `time.sleep(delay)` calls the run makes. -/
def sleepCount (es : List Event) : Nat :=
  es.countP (fun e => match e with | .sleep => true | _ => false)

/-- Turns an empty-body response into a transport failure; used to state
that the orchestrator cannot tell the two apart. -/
def failAsNone (fetch : String → Option String) : String → Option String :=
  fun u =>
    match fetch u with
    | some s => if s == "" then none else some s
    | none => none

/-! ## Exporters (`save_to_csv` lines 187–205, `save_to_json` lines 208–210)

Modelled as the file content each call writes: `save_to_csv` returns
`none` when it writes nothing (the early `return` on an empty record
list) and otherwise the written lines; `save_to_json` returns the JSON
text `json.dump(records, indent=2, ensure_ascii=False)` produces. -/

def fieldnames : List String :=
  ["product_name", "company", "email", "linkedin_url", "twitter_url", "careers_page", "tool_url"]

/-- The row cells `DictWriter` writes for a record, in `fieldnames`
order. -/
def recordFields (r : ToolRecord) : List String :=
  [r.product_name, r.company, r.email, r.linkedin_url, r.twitter_url, r.careers_page, r.tool_url]

/-- csv `QUOTE_MINIMAL`: quote a field iff it contains the delimiter,
the quote character or a line-terminator character, doubling quotes. -/
def csvQuote (s : String) : String :=
  if s.data.any (fun c => c == ',' || c == '"' || c == '\r' || c == '\n') then
    "\"" ++ String.mk (s.data.flatMap (fun c => if c == '"' then ['"', '"'] else [c])) ++ "\""
  else s

/-- One written CSV line, including the default `\r\n` terminator. -/
def csvLine (cells : List String) : String :=
  String.intercalate "," (cells.map csvQuote) ++ "\r\n"

/-- `save_to_csv(records, filename)`: `none` models the early return
that leaves the file unwritten. -/
def save_to_csv (records : List ToolRecord) : Option (List String) :=
  match records with
  | [] => none
  | _ :: _ => some (csvLine fieldnames :: records.map (fun r => csvLine (recordFields r)))

/-- JSON string escaping as `json.dump` performs it (`ensure_ascii=False`:
non-ASCII characters pass through unescaped). -/
def jsonEscapeChar (c : Char) : List Char :=
  if c == '"' then ['\\', '"']
  else if c == '\\' then ['\\', '\\']
  else if c == '\n' then ['\\', 'n']
  else if c == '\r' then ['\\', 'r']
  else if c == '\t' then ['\\', 't']
  else if c == '\x08' then ['\\', 'b']
  else if c == '\x0c' then ['\\', 'f']
  else if decide (c.toNat < 32) then
    '\\' :: 'u' :: '0' :: '0' :: [Nat.digitChar (c.toNat / 16), Nat.digitChar (c.toNat % 16)]
  else [c]

def jsonStr (s : String) : String :=
  "\"" ++ String.mk (s.data.flatMap jsonEscapeChar) ++ "\""

/-- One record rendered as an indented JSON object. -/
def jsonObj (r : ToolRecord) : String :=
  "  \x7b\n"
    ++ String.intercalate ",\n"
      (((fieldnames.zip (recordFields r)).map
        (fun p => "    " ++ jsonStr p.1 ++ ": " ++ jsonStr p.2)))
    ++ "\n  \x7d"

/-- `save_to_json(records, filename)`: the text `json.dump(records, f,
ensure_ascii=False, indent=2)` writes.  An empty list renders as `[]`. -/
def save_to_json (records : List ToolRecord) : String :=
  match records with
  | [] => "[]"
  | _ :: _ => "[\n" ++ String.intercalate ",\n" (records.map jsonObj) ++ "\n]"

example : save_to_csv [] = none := by decide
example : save_to_json [] = "[]" := by decide
example : save_to_csv [emptyRecord "https://a.ex"]
    = some ["product_name,company,email,linkedin_url,twitter_url,careers_page,tool_url\r\n",
            ",,,,,,https://a.ex\r\n"] := by decide

/-! ## Concrete fixtures used to instantiate the theorems -/

/-- A fetch in which every request fails (every `requests.get` raises). -/
def fetchNone : String → Option String := fun _ => none

/-- A fetch in which every request succeeds with an empty body. -/
def fetchEmpty : String → Option String := fun _ => some ""

/-- A parser stand-in producing a document with no title, metas or
anchors (what the soup yields for bodies without those tags). -/
def parse0 : String → Doc := fun s => ⟨none, [], [], s⟩

/-- A one-link README. -/
def mdOne : String := "(https://tool.example)"

/-- A page with one `mailto:` anchor and one plain-text address. -/
def docMail : Doc := ⟨none, [], [⟨"mailto:a@b.co?subject=hi", "mail"⟩], "reach a@b.co"⟩

/-! ## Proofs -/

/-- Each step of `scrapeLoop` sleeps exactly when the fetch result is
truthy. -/
theorem sleepCount_scrapeLoop (fetch : String → Option String) (parse : String → Doc) :
    ∀ urls : List String,
      sleepCount (scrapeLoop fetch parse urls) = urls.countP (fun u => !(pyFalsy (fetch u)))
  | [] => rfl
  | url :: rest => by
    have ih := sleepCount_scrapeLoop fetch parse rest
    by_cases h : pyFalsy (fetch url) <;>
      simp [scrapeLoop, h, sleepCount, List.countP_cons] <;> exact ih

/-- C1: the claim states that a `delay` sleep occurs at the end of the
loop body for every processed URL, after the placeholder branch as well
as after the success branch.  Counterexample: a run over one URL whose
fetch fails appends one (placeholder) record but performs zero sleeps —
the `continue` on line 164 skips `time.sleep(delay)` on line 182. -/
theorem C1_counterexample :
    sleepCount (scrape_all_tools fetchNone parse0 mdOne none) = 0 ∧
    (recordsOf (scrape_all_tools fetchNone parse0 mdOne none)).length = 1 ∧
    sleepCount (scrape_all_tools fetchNone parse0 mdOne none) ≠
      (recordsOf (scrape_all_tools fetchNone parse0 mdOne none)).length := by
  refine ⟨by decide, by decide, by decide⟩

/-- C1 (amended): the sleep happens only in the success branch, so the
number of `time.sleep(delay)` calls equals the number of processed URLs
whose fetch returned non-empty text, not the number of processed URLs. -/
theorem C1_delay_only_after_success (fetch : String → Option String) (parse : String → Doc)
    (md : String) (limit : Option Int) :
    sleepCount (scrape_all_tools fetch parse md limit) =
      (processedUrls md limit).countP (fun u => !(pyFalsy (fetch u))) :=
  sleepCount_scrapeLoop fetch parse (processedUrls md limit)

/-- C3: a document whose title is `"Acme — Acme Corp"` and which has no
`og:title` / `og:site_name` metas yields `product_name = "Acme"` (first
trimmed segment at the em-dash) and `company_name = "Acme Corp"` (last
trimmed segment of the same title). -/
theorem C3_title_em_dash_split :
    guess_product_name_and_company ⟨some "Acme — Acme Corp", [], [], ""⟩ "https://acme.example"
      = ("Acme", "Acme Corp") := by decide

/-- C5: the claim states the domain fallback strips only a leading
`"www."` from the host.  Counterexample: for host
`app.www.example.com` the code's `domain.replace("www.", "")` (line 87)
removes the interior occurrence as well, producing `app.example.com`
instead of the claimed `app.www.example.com`. -/
theorem C5_counterexample :
    (guess_product_name_and_company ⟨none, [], [], ""⟩ "https://app.www.example.com/page").2
        = "app.example.com" ∧
    specLeadingWwwStripped (pyNetloc "https://app.www.example.com/page")
        = "app.www.example.com" ∧
    (guess_product_name_and_company ⟨none, [], [], ""⟩ "https://app.www.example.com/page").2
        ≠ specLeadingWwwStripped (pyNetloc "https://app.www.example.com/page") := by
  refine ⟨by decide, by decide, by decide⟩

/-- C5 (amended): when the title and `og:site_name` are empty, the
returned `company_name` is the URL's host with *every* non-overlapping
occurrence of `"www."` removed, leading or not. -/
theorem C5_company_fallback_removes_all_www (d : Doc) (url : String)
    (h1 : docTitle d = "") (h2 : docMeta d "og:site_name" = "") :
    (guess_product_name_and_company d url).2 = String.mk (removeWww (pyNetloc url).data) := by
  have hcl : cutLast "" sepList = "" := by decide
  simp [guess_product_name_and_company, h1, h2, hcl]

theorem C5_witness :
    docTitle ⟨none, [], [], ""⟩ = "" ∧
    docMeta ⟨none, [], [], ""⟩ "og:site_name" = "" ∧
    (guess_product_name_and_company ⟨none, [], [], ""⟩ "https://www.acme.example/x").2
      = String.mk (removeWww (pyNetloc "https://www.acme.example/x").data) :=
  ⟨rfl, rfl, C5_company_fallback_removes_all_www ⟨none, [], [], ""⟩ "https://www.acme.example/x" rfl rfl⟩

/-- C9: an empty record list makes `save_to_csv` return without writing
while `save_to_json` writes `[]`; a non-empty list is written as the
fixed seven-column header line followed by one CSV line per record. -/
theorem C9_exporters_empty_and_header (records : List ToolRecord) :
    save_to_csv ([] : List ToolRecord) = none ∧
    save_to_json ([] : List ToolRecord) = "[]" ∧
    (records ≠ [] →
      save_to_csv records =
        some ("product_name,company,email,linkedin_url,twitter_url,careers_page,tool_url\r\n"
          :: records.map (fun r => csvLine (recordFields r)))) := by
  refine ⟨rfl, rfl, fun h => ?_⟩
  match records with
  | [] => exact absurd rfl h
  | r :: rs => rfl

theorem C9_witness :
    ([emptyRecord "https://a.ex"] : List ToolRecord) ≠ [] ∧
    save_to_csv [emptyRecord "https://a.ex"] =
      some ("product_name,company,email,linkedin_url,twitter_url,careers_page,tool_url\r\n"
        :: [emptyRecord "https://a.ex"].map (fun r => csvLine (recordFields r))) :=
  ⟨by decide, (C9_exporters_empty_and_header [emptyRecord "https://a.ex"]).2.2 (by decide)⟩

/-- `scrapeLoop` cannot distinguish an empty body from a failed fetch. -/
theorem scrapeLoop_failAsNone (fetch : String → Option String) (parse : String → Doc) :
    ∀ urls : List String,
      scrapeLoop fetch parse urls = scrapeLoop (failAsNone fetch) parse urls
  | [] => rfl
  | url :: rest => by
    have ih := scrapeLoop_failAsNone fetch parse rest
    cases hfu : fetch url with
    | none => simp [scrapeLoop, pyFalsy, failAsNone, hfu, ih]
    | some s =>
      by_cases hs : s = ""
      · simp [scrapeLoop, pyFalsy, failAsNone, hfu, hs, ih]
      · simp [scrapeLoop, pyFalsy, failAsNone, hfu, hs, ih]

/-- C10: a successful fetch with an empty body is treated exactly like a
fetch failure: the whole run is unchanged if empty bodies are turned
into failures, and the loop step for such a URL emits the all-empty
placeholder record (no heuristics, no sleep) and moves on. -/
theorem C10_empty_body_like_failure (fetch : String → Option String) (parse : String → Doc)
    (md : String) (limit : Option Int) (url : String) (rest : List String)
    (h : fetch url = some "") :
    scrape_all_tools fetch parse md limit = scrape_all_tools (failAsNone fetch) parse md limit ∧
    scrapeLoop fetch parse (url :: rest) =
      Event.emit (emptyRecord url) :: scrapeLoop fetch parse rest := by
  constructor
  · exact scrapeLoop_failAsNone fetch parse (processedUrls md limit)
  · simp [scrapeLoop, pyFalsy, h]

/-- A successful `urlTail` consumed the URL-character run of `r` and a
closing parenthesis. -/
theorem urlTail_eq {pre r u rest : List Char} (h : urlTail pre r = some (u, rest)) :
    u = pre ++ r.takeWhile isUrlChar ∧ r = r.takeWhile isUrlChar ++ ')' :: rest := by
  simp only [urlTail] at h
  by_cases he : (r.takeWhile isUrlChar).isEmpty
  · rw [if_pos he] at h
    exact absurd h (by simp)
  · rw [if_neg he] at h
    split at h
    · rename_i rest' heq
      injection h with h'
      injection h' with h1 h2
      subst h1
      subst h2
      exact ⟨rfl, by rw [← heq, List.takeWhile_append_dropWhile]⟩
    · exact absurd h (by simp)

/-- A successful `matchUrlAt` consumed exactly `( url )` and the URL
starts with an http or https scheme. -/
theorem matchUrlAt_eq {cs u rest : List Char} (h : matchUrlAt cs = some (u, rest)) :
    cs = '(' :: (u ++ ')' :: rest) ∧ ("http://".data <+: u ∨ "https://".data <+: u) := by
  rw [matchUrlAt] at h
  by_cases h9 : "(https://".data <+: cs
  · rw [if_pos h9] at h
    obtain ⟨hu, hr⟩ := urlTail_eq h
    obtain ⟨t, ht⟩ := h9
    have hdrop : cs.drop 9 = t := by
      rw [← ht]
      have hlen : ("(https://".data).length = 9 := rfl
      rw [← hlen, List.drop_left]
    rw [hdrop] at hu hr
    refine ⟨?_, Or.inr ⟨_, hu.symm⟩⟩
    rw [← ht, hu]
    conv_lhs => rw [hr]
    have hsplit : "(https://".data = '(' :: "https://".data := rfl
    rw [hsplit]
    simp [List.append_assoc]
  · rw [if_neg h9] at h
    by_cases h8 : "(http://".data <+: cs
    · rw [if_pos h8] at h
      obtain ⟨hu, hr⟩ := urlTail_eq h
      obtain ⟨t, ht⟩ := h8
      have hdrop : cs.drop 8 = t := by
        rw [← ht]
        have hlen : ("(http://".data).length = 8 := rfl
        rw [← hlen, List.drop_left]
      rw [hdrop] at hu hr
      refine ⟨?_, Or.inl ⟨_, hu.symm⟩⟩
      rw [← ht, hu]
      conv_lhs => rw [hr]
      have hsplit : "(http://".data = '(' :: "http://".data := rfl
      rw [hsplit]
      simp [List.append_assoc]
    · rw [if_neg h8] at h
      exact absurd h (by simp)

/-- Every URL found by the regex scan occurs parenthesized in the
input, scheme included. -/
theorem mem_findUrls : ∀ (fuel : Nat) (cs u : List Char), u ∈ findUrls fuel cs →
    ('(' :: (u ++ ')' :: [])) <:+: cs ∧ ("http://".data <+: u ∨ "https://".data <+: u)
  | 0, _, _, h => absurd h (List.not_mem_nil _)
  | _ + 1, [], _, h => absurd h (List.not_mem_nil _)
  | fuel + 1, c :: t, u, h => by
    rw [findUrls] at h
    cases hm : matchUrlAt (c :: t) with
    | none =>
      rw [hm] at h
      have ih := mem_findUrls fuel t u h
      exact ⟨ih.1.trans (List.suffix_cons c t).isInfix, ih.2⟩
    | some pr =>
      obtain ⟨u', rest⟩ := pr
      rw [hm] at h
      obtain ⟨hcs, hpre⟩ := matchUrlAt_eq hm
      rcases List.mem_cons.mp h with rfl | hmem
      · refine ⟨⟨[], rest, ?_⟩, hpre⟩
        rw [hcs]
        simp
      · have ih := mem_findUrls fuel rest u hmem
        have hsuf : rest <:+ c :: t := ⟨'(' :: u' ++ [')'], by rw [hcs]; simp⟩
        exact ⟨ih.1.trans hsuf.isInfix, ih.2⟩

/-- C2: `extract_tool_links` returns no self-link (no URL containing
the excluded repository path segment), without duplicates, sorted
lexicographically; every element occurs parenthesized in the input and
carries an http/https scheme. -/
theorem C2_extract_tool_links_sound (md : String) :
    (extract_tool_links md).Nodup ∧
    List.Sorted strLe (extract_tool_links md) ∧
    ∀ u ∈ extract_tool_links md,
      ¬ (excludedSeg.data <:+: u.data) ∧
      ('(' :: (u.data ++ ')' :: [])) <:+: md.data ∧
      ("http://".data <+: u.data ∨ "https://".data <+: u.data) := by
  have hperm := List.perm_insertionSort strLe
    (((findUrls md.data.length md.data).map String.mk).dedup.filter
      (fun url => !(strContains url excludedSeg)))
  refine ⟨hperm.nodup_iff.mpr ((List.nodup_dedup _).filter _),
    List.sorted_insertionSort strLe _, ?_⟩
  intro u hu
  have hu' : u ∈ ((findUrls md.data.length md.data).map String.mk).dedup.filter
      (fun url => !(strContains url excludedSeg)) := hperm.mem_iff.mp hu
  have hfil := List.mem_filter.mp hu'
  obtain ⟨l, hl, rfl⟩ := List.mem_map.mp (List.mem_dedup.mp hfil.1)
  have hpred := hfil.2
  refine ⟨?_, (mem_findUrls _ _ _ hl).1, (mem_findUrls _ _ _ hl).2⟩
  intro hinf
  rw [strContains] at hpred
  simp only [Bool.not_eq_true', decide_eq_false_iff_not] at hpred
  exact hpred hinf

theorem C2_witness :
    "https://a.ex" ∈ extract_tool_links "(https://a.ex) (http://b.ex)" ∧
    ¬ (excludedSeg.data <:+: "https://a.ex".data) ∧
    ('(' :: ("https://a.ex".data ++ ')' :: [])) <:+: "(https://a.ex) (http://b.ex)".data ∧
    ("http://".data <+: "https://a.ex".data ∨ "https://".data <+: "https://a.ex".data) :=
  ⟨by decide,
    (C2_extract_tool_links_sound "(https://a.ex) (http://b.ex)").2.2 "https://a.ex" (by decide)⟩

/-- C7: `extract_emails` has set semantics — each address appears at
most once, the output is sorted, and an address is returned exactly
when it comes from a `mailto:` target (query stripped) or from a match
of the e-mail pattern over the raw HTML. -/
theorem C7_extract_emails_set_semantics (d : Doc) :
    (extract_emails d).Nodup ∧
    List.Sorted strLe (extract_emails d) ∧
    ∀ e : String, e ∈ extract_emails d ↔
      (e ∈ mailtoEmails d.anchors ∨ e ∈ emailMatches d.raw) := by
  have hperm :=
    List.perm_insertionSort strLe ((mailtoEmails d.anchors ++ emailMatches d.raw).dedup)
  refine ⟨hperm.nodup_iff.mpr (List.nodup_dedup _), List.sorted_insertionSort strLe _, ?_⟩
  intro e
  exact hperm.mem_iff.trans (List.mem_dedup.trans List.mem_append)

theorem C7_witness : "a@b.co" ∈ extract_emails docMail :=
  ((C7_extract_emails_set_semantics docMail).2.2 "a@b.co").mpr (Or.inl (by decide))

/-- A string containing a nonempty substring is nonempty. -/
theorem ne_empty_of_strContains {s t : String} (h : strContains s t = true) (ht : t ≠ "") :
    s ≠ "" := by
  intro hs
  subst hs
  rw [strContains, decide_eq_true_eq] at h
  have hnil : t.data = [] := List.sublist_nil.mp (by simpa using h.sublist)
  apply ht
  cases t with
  | mk l => cases hnil; rfl

/-- The first component of the social-link loop: with an empty
accumulator it returns the first anchor href containing
`"linkedin.com"`, with a nonempty accumulator it keeps it. -/
theorem socialLoop_fst : ∀ (anchors : List Anchor) (li tw : String),
    (socialLoop anchors li tw).1 =
      (if li = "" then
        (match anchors.find? (fun a => strContains a.href "linkedin.com") with
         | some a => a.href
         | none => "")
       else li)
  | [], li, tw => by by_cases h : li = "" <;> simp [socialLoop, h]
  | a :: rest, li, tw => by
    rw [socialLoop]
    by_cases hli : li = ""
    · subst hli
      by_cases hm : strContains a.href "linkedin.com" = true
      · have hne : a.href ≠ "" := ne_empty_of_strContains hm (by decide)
        have hliIf : (if (strContains a.href "linkedin.com" && (("" : String) == "")) = true
            then a.href else "") = a.href := by simp [hm]
        rw [hliIf, socialLoop_fst, if_neg hne]
        simp [List.find?, hm]
      · have hliIf : (if (strContains a.href "linkedin.com" && (("" : String) == "")) = true
            then a.href else "") = "" := by simp [hm]
        rw [hliIf, socialLoop_fst, if_pos rfl]
        simp [List.find?, hm]
    · have hliIf : (if (strContains a.href "linkedin.com" && ((li == "") : Bool)) = true
          then a.href else li) = li := by simp [hli]
      rw [hliIf, socialLoop_fst, if_neg hli, if_neg hli]

/-- The second component: first anchor href containing `"twitter.com"`
or `"x.com"`. -/
theorem socialLoop_snd : ∀ (anchors : List Anchor) (li tw : String),
    (socialLoop anchors li tw).2 =
      (if tw = "" then
        (match anchors.find?
            (fun a => strContains a.href "twitter.com" || strContains a.href "x.com") with
         | some a => a.href
         | none => "")
       else tw)
  | [], li, tw => by by_cases h : tw = "" <;> simp [socialLoop, h]
  | a :: rest, li, tw => by
    rw [socialLoop]
    by_cases htw : tw = ""
    · subst htw
      by_cases hm : (strContains a.href "twitter.com" || strContains a.href "x.com") = true
      · have hne : a.href ≠ "" := by
          rcases Bool.or_eq_true_iff.mp hm with h1 | h1
          · exact ne_empty_of_strContains h1 (by decide)
          · exact ne_empty_of_strContains h1 (by decide)
        have htwIf : (if ((strContains a.href "twitter.com" || strContains a.href "x.com")
            && (("" : String) == "")) = true then a.href else "") = a.href := by simp [hm]
        rw [htwIf, socialLoop_snd, if_neg hne]
        simp [List.find?, hm]
      · have htwIf : (if ((strContains a.href "twitter.com" || strContains a.href "x.com")
            && (("" : String) == "")) = true then a.href else "") = "" := by simp [hm]
        rw [htwIf, socialLoop_snd, if_pos rfl]
        simp [List.find?, hm]
    · have htwIf : (if ((strContains a.href "twitter.com" || strContains a.href "x.com")
          && ((tw == "") : Bool)) = true then a.href else tw) = tw := by simp [htw]
      rw [htwIf, socialLoop_snd, if_neg htw, if_neg htw]

/-- C8: `extract_social_links` returns, per platform, the href of the
first anchor in document order whose href contains the platform marker
(`"linkedin.com"`, resp. `"twitter.com"` or `"x.com"`); later matches
are ignored and absence yields `""`. -/
theorem C8_social_first_match (d : Doc) :
    (extract_social_links d).1 =
      (match d.anchors.find? (fun a => strContains a.href "linkedin.com") with
       | some a => a.href
       | none => "") ∧
    (extract_social_links d).2 =
      (match d.anchors.find?
          (fun a => strContains a.href "twitter.com" || strContains a.href "x.com") with
       | some a => a.href
       | none => "") := by
  constructor
  · simpa using socialLoop_fst d.anchors "" ""
  · simpa using socialLoop_snd d.anchors "" ""

theorem C8_witness :
    (extract_social_links
      ⟨none, [], [⟨"https://linkedin.com/a", ""⟩, ⟨"https://linkedin.com/b", ""⟩,
                  ⟨"https://twitter.com/t", ""⟩], ""⟩).1 = "https://linkedin.com/a" :=
  (C8_social_first_match
    ⟨none, [], [⟨"https://linkedin.com/a", ""⟩, ⟨"https://linkedin.com/b", ""⟩,
                ⟨"https://twitter.com/t", ""⟩], ""⟩).1.trans (by decide)

/-- The records a run accumulates: one per URL, placeholder on falsy
fetch, assembled from the heuristics otherwise. -/
theorem recordsOf_scrapeLoop (fetch : String → Option String) (parse : String → Doc) :
    ∀ urls : List String,
      recordsOf (scrapeLoop fetch parse urls) =
        urls.map (fun u =>
          if pyFalsy (fetch u) then emptyRecord u else makeRecord parse ((fetch u).getD "") u)
  | [] => rfl
  | url :: rest => by
    have ih := recordsOf_scrapeLoop fetch parse rest
    by_cases h : pyFalsy (fetch url) <;>
      simp [scrapeLoop, h, recordsOf] <;> exact ih

/-- C4: the claim quantifies over every non-`None` limit.
Counterexample: `limit = 0` is falsy in Python, so `if limit:` skips the
truncation (line 146) and the whole list is processed instead of the
first `0` entries. -/
theorem C4_counterexample :
    processedUrls "(https://a.ex)" (some 0) = ["https://a.ex"] ∧
    (extract_tool_links "(https://a.ex)").take ((0 : Int)).toNat = [] ∧
    processedUrls "(https://a.ex)" (some 0) ≠
      (extract_tool_links "(https://a.ex)").take ((0 : Int)).toNat := by
  refine ⟨by decide, by decide, by decide⟩

/-- C4 (amended): for every *positive* limit the processed list is
exactly the first `limit` entries of the sorted extracted links, so at
most `limit` records are produced. -/
theorem C4_limit_truncates_when_positive (md : String) (n : Int) (h : 0 < n)
    (fetch : String → Option String) (parse : String → Doc) :
    processedUrls md (some n) = (extract_tool_links md).take n.toNat ∧
    (recordsOf (scrape_all_tools fetch parse md (some n))).length ≤ n.toNat := by
  have hne : n ≠ 0 := h.ne'
  have hsl : processedUrls md (some n) = (extract_tool_links md).take n.toNat := by
    simp [processedUrls, hne, pyTake, h.le]
  refine ⟨hsl, ?_⟩
  rw [scrape_all_tools, recordsOf_scrapeLoop, List.length_map, hsl, List.length_take]
  exact Nat.min_le_left _ _

theorem C4_witness :
    (0 : Int) < 1 ∧
    processedUrls "(https://a.ex)" (some 1) =
      (extract_tool_links "(https://a.ex)").take ((1 : Int)).toNat :=
  ⟨by decide, (C4_limit_truncates_when_positive "(https://a.ex)" 1 (by decide) fetchNone parse0).1⟩

/-- C6: one record per processed URL, in order (the record's `tool_url`
is that URL), and a URL whose fetch fails yields the placeholder record
with every other field empty. -/
theorem C6_placeholder_per_failed_url (fetch : String → Option String) (parse : String → Doc)
    (md : String) (limit : Option Int) :
    (recordsOf (scrape_all_tools fetch parse md limit)).length =
      (processedUrls md limit).length ∧
    (recordsOf (scrape_all_tools fetch parse md limit)).map ToolRecord.tool_url =
      processedUrls md limit ∧
    ∀ (i : Nat) (h1 : i < (processedUrls md limit).length)
      (h2 : i < (recordsOf (scrape_all_tools fetch parse md limit)).length),
      fetch ((processedUrls md limit).get ⟨i, h1⟩) = none →
      (recordsOf (scrape_all_tools fetch parse md limit)).get ⟨i, h2⟩ =
        emptyRecord ((processedUrls md limit).get ⟨i, h1⟩) := by
  have hrec := recordsOf_scrapeLoop fetch parse (processedUrls md limit)
  rw [scrape_all_tools] at *
  refine ⟨by rw [hrec, List.length_map], ?_, ?_⟩
  · rw [hrec, List.map_map]
    have : (ToolRecord.tool_url ∘ fun u =>
        if pyFalsy (fetch u) then emptyRecord u else makeRecord parse ((fetch u).getD "") u)
        = id := by
      funext u
      by_cases h : pyFalsy (fetch u) <;> simp [h, emptyRecord, makeRecord]
    rw [this, List.map_id]
  · intro i h1 h2 hf
    have hfalsy : pyFalsy (fetch ((processedUrls md limit).get ⟨i, h1⟩)) = true := by
      rw [hf]; rfl
    simp only [List.get_eq_getElem] at hfalsy ⊢
    rw [List.getElem_of_eq hrec h2, List.getElem_map, if_pos hfalsy]

theorem C6_witness :
    fetchNone ((processedUrls mdOne none).get ⟨0, by decide⟩) = none ∧
    (recordsOf (scrape_all_tools fetchNone parse0 mdOne none)).get ⟨0, by decide⟩ =
      emptyRecord ((processedUrls mdOne none).get ⟨0, by decide⟩) :=
  ⟨rfl, (C6_placeholder_per_failed_url fetchNone parse0 mdOne none).2.2 0 (by decide) (by decide) rfl⟩

theorem C10_witness :
    fetchEmpty "https://t.ex" = some "" ∧
    scrapeLoop fetchEmpty parse0 ["https://t.ex"] =
      Event.emit (emptyRecord "https://t.ex") :: scrapeLoop fetchEmpty parse0 [] :=
  ⟨rfl, (C10_empty_body_like_failure fetchEmpty parse0 "" none "https://t.ex" [] rfl).2⟩
